import Mathlib

/-!
Verification of the kicktipp-bot odds aggregation and prediction engine.

The definitions below are a shallow embedding of `src/kicktipp_bot/models/game.py`
and `src/kicktipp_bot/utils/odds_api.py`.  Bookmaker prices, spread points and
totals lines are modelled as exact rationals (the Python code computes with
binary floats; all spec-level properties are about the exact values).  Python
floor division `//` and `%` on integers coincide with Lean `/` and `%` on `ℤ`
for the positive divisors used here.  Fallible paths (list indexing, `min` of an
empty mapping) are modelled with `Except`.
-/

/-- Floor of a rational as an integer (Python `math.floor`). -/
def ratFloor (q : ℚ) : ℤ := q.num / (q.den : ℤ)

/-- Ceiling of a rational as an integer (Python `math.ceil`). -/
def ratCeil (q : ℚ) : ℤ := -ratFloor (-q)

/-- Truncation toward zero, Python `int(...)` on a numeric value. -/
def ratTrunc (q : ℚ) : ℤ := if 0 ≤ q then ratFloor q else ratCeil q

/-- Python `round(x)`: round half to even. -/
def pyRound (q : ℚ) : ℤ :=
  let f := ratFloor q
  let r := q - (f : ℚ)
  if r < 1/2 then f
  else if 1/2 < r then f + 1
  else if f % 2 = 0 then f else f + 1

/-- Python `round(x, 2)`. -/
def round2 (q : ℚ) : ℚ := (pyRound (q * 100) : ℚ) / 100

/-- Python `sorted` on a list of numbers. -/
def sortQ (l : List ℚ) : List ℚ := List.insertionSort (· ≤ ·) l

/-- Python `statistics.median`: middle element of the sorted list, or the mean
of the two middle elements for an even length. -/
def medianQ (l : List ℚ) : ℚ :=
  let s := sortQ l
  if s.length % 2 = 1 then s.getD (s.length / 2) 0
  else (s.getD (s.length / 2 - 1) 0 + s.getD (s.length / 2) 0) / 2

/-- Smallest element of a list (Python `min`). -/
def listMin : List ℚ → Option ℚ
  | [] => none
  | a :: as => some (as.foldl min a)

/-- Largest element of a list (Python `max`). -/
def listMax : List ℚ → Option ℚ
  | [] => none
  | a :: as => some (as.foldl max a)

/-- Worker for `dedupFirst`: drop elements already seen. -/
def dedupFirstAux {α : Type} [DecidableEq α] (seen : List α) : List α → List α
  | [] => []
  | a :: as =>
    if a ∈ seen then dedupFirstAux seen as
    else a :: dedupFirstAux (a :: seen) as

/-- Keys of a Python dict or `collections.Counter` built by insertion, in
first-occurrence order. -/
def dedupFirst {α : Type} [DecidableEq α] (l : List α) : List α :=
  dedupFirstAux [] l

/-- Comparison of average price gaps, where `none` models the float infinity
used when no gap data exists. -/
def gapLt : Option ℚ → Option ℚ → Bool
  | some x, some y => x < y
  | some _, none => true
  | none, _ => false

/-- Python `min(keys, key=f)`: the first key attaining the minimal value. -/
def argminFirst (f : ℚ → Option ℚ) (c : ℚ) (cs : List ℚ) : ℚ :=
  cs.foldl (fun best q => if gapLt (f q) (f best) then q else best) c

/-- Concatenated image of a list under a list-valued function (the nested
`for` loops collecting values across bookmakers and markets). -/
def concatMapF {α β : Type} (f : α → List β) : List α → List β
  | [] => []
  | a :: as => f a ++ concatMapF f as

/-- ASCII lower-casing of one character; models `str.casefold` on the ASCII
range (full Unicode case folding is outside the embedding). -/
def charLower (c : Char) : Char :=
  if 65 ≤ c.toNat && c.toNat ≤ 90 then Char.ofNat (c.toNat + 32) else c

/-- Key used by `Game._aggregate_spread.norm`: NFC normalisation followed by
`strip` and `casefold`.  Modelled over ASCII as trimming spaces and
lower-casing; NFC normalisation of non-ASCII text is outside the embedding. -/
def normKey (s : String) : List Char :=
  (((s.data.dropWhile (fun c => c == ' ')).reverse.dropWhile (fun c => c == ' ')).reverse).map charLower

/-- One priced outcome of a bookmaker market (`point` is present only for
spreads and totals outcomes). -/
structure Outcome where
  name : String
  price : ℚ
  point : Option ℚ
deriving DecidableEq

/-- One market of a bookmaker (`key` is "h2h", "spreads" or "totals"). -/
structure Market where
  key : String
  outcomes : List Outcome
deriving DecidableEq

/-- One bookmaker entry of an event. -/
structure Bookmaker where
  title : String
  markets : List Market
deriving DecidableEq

/-- One event of the odds provider payload. -/
structure Event where
  bookmakers : List Bookmaker
deriving DecidableEq

/-- The static platform-name to provider-name table `KICKTIPP_TO_API`. -/
def KICKTIPP_TO_API : List (String × String) :=
  [("FC Bayern München", "Bayern Munich"),
   ("RB Leipzig", "RB Leipzig"),
   ("1. FC Heidenheim 1846", "1. FC Heidenheim"),
   ("VfL Wolfsburg", "VfL Wolfsburg"),
   ("SC Freiburg", "SC Freiburg"),
   ("FC Augsburg", "Augsburg"),
   ("Bayer 04 Leverkusen", "Bayer Leverkusen"),
   ("1899 Hoffenheim", "TSG Hoffenheim"),
   ("Eintracht Frankfurt", "Eintracht Frankfurt"),
   ("Werder Bremen", "Werder Bremen"),
   ("1. FC Union Berlin", "Union Berlin"),
   ("VfB Stuttgart", "VfB Stuttgart"),
   ("FC St. Pauli", "FC St. Pauli"),
   ("Borussia Dortmund", "Borussia Dortmund"),
   ("FSV Mainz 05", "FSV Mainz 05"),
   ("1. FC Köln", "1. FC Köln"),
   ("Bor. Mönchengladbach", "Borussia Monchengladbach"),
   ("Hamburger SV", "Hamburger SV")]

/-- Lookup `KICKTIPP_TO_API.get(s)`. -/
def kicktippToApi (s : String) : Option String :=
  (KICKTIPP_TO_API.find? (fun p => p.1 == s)).map (fun p => p.2)

/-- The reversed mapping `api_to_kicktipp` of `Game._aggregate_market_quotes`,
with the added entry for "Draw" and the identity fallback of `.get(n, n)`. -/
def apiToKicktipp (s : String) : String :=
  if s == "Draw" then "Draw"
  else
    match KICKTIPP_TO_API.find? (fun p => p.2 == s) with
    | some p => p.1
    | none => s

/-- All h2h prices of the event for a given platform-mapped outcome name, in
reading order (the `all_quotes` collection of `Game._aggregate_market_quotes`). -/
def h2hPrices (e : Event) (name : String) : List ℚ :=
  concatMapF (fun b =>
    concatMapF (fun m =>
      if m.key == "h2h" then
        m.outcomes.filterMap (fun o =>
          if apiToKicktipp o.name == name then some o.price else none)
      else []) b.markets) e.bookmakers

/-- Winsorizing step of `Game._aggregate_market_quotes`: `sorted(prices)[1:-1]`. -/
def trimCode (l : List ℚ) : List ℚ := ((sortQ l).drop 1).dropLast

/-- Representative price of one outcome in `Game._aggregate_market_quotes`:
median after winsorizing when more than two quotes, rounded to 2 decimals. -/
def aggValue (l : List ℚ) : ℚ :=
  round2 (medianQ (if 2 < l.length then trimCode l else l))

/-- `Game._aggregate_market_quotes` for the h2h market, viewed as the mapping
outcome name to representative price. -/
def aggH2H (e : Event) (name : String) : Option ℚ :=
  let ps := h2hPrices e name
  if ps.isEmpty then none else some (aggValue ps)

/-- Platform-mapped h2h outcome names of the event in reading order. -/
def h2hNames (e : Event) : List String :=
  concatMapF (fun b =>
    concatMapF (fun m =>
      if m.key == "h2h" then m.outcomes.map (fun o => apiToKicktipp o.name)
      else []) b.markets) e.bookmakers

/-- The aggregated h2h mapping as an association list in Python dict insertion
order (key order of `all_quotes` in `Game._aggregate_market_quotes`). -/
def h2hAssoc (e : Event) : List (String × ℚ) :=
  (dedupFirst (h2hNames e)).map (fun n => (n, aggValue (h2hPrices e n)))

/-- Python `min` over key-value pairs comparing values: the first pair with
the minimal value wins. -/
def minBySnd (x : String × ℚ) (xs : List (String × ℚ)) : String × ℚ :=
  xs.foldl (fun b y => if y.2 < b.2 then y else b) x

/-- Step 4 of the smart strategy (line 212 of game.py): name of the outcome
with the minimal aggregated h2h price; `none` models the `ValueError` that
Python `min` raises on an empty mapping. -/
def tendencyOf (e : Event) : Option String :=
  match h2hAssoc e with
  | [] => none
  | x :: xs => some (minBySnd x xs).1

/-- Python dict insert-or-update: an existing key keeps its position and gets
the new value. -/
def upsert (k : String) (v : ℚ) : List (String × ℚ) → List (String × ℚ)
  | [] => [(k, v)]
  | (k0, v0) :: rest =>
    if k0 == k then (k0, v) :: rest else (k0, v0) :: upsert k v rest

/-- Dict of platform-mapped outcome names to prices built from the outcome
list of a market (the `vals` comprehension in `Game._aggregate_spread`). -/
def outcomesDict (os : List Outcome) : List (String × ℚ) :=
  os.foldl (fun d o => upsert (apiToKicktipp o.name) o.price d) []

/-- Python stable `sorted` of name-price pairs by price. -/
def sortByPrice (l : List (String × ℚ)) : List (String × ℚ) :=
  List.insertionSort (fun x y => x.2 ≤ y.2) l

/-- Favorite of one bookmaker by its own h2h prices (`Game._aggregate_spread`):
lowest-priced of exactly two non-draw outcomes of the last h2h market. -/
def bookFavorite (b : Bookmaker) : Option String :=
  match (b.markets.filter (fun m => m.key == "h2h")).getLast? with
  | none => none
  | some m =>
    let d := outcomesDict m.outcomes
    if 2 ≤ d.length then
      match sortByPrice (d.filter (fun p => !(p.1 == "Draw"))) with
      | [f, _] => some f.1
      | _ => none
    else none

/-- The `fav_names` variant set of `Game._aggregate_spread` as a list. -/
def favVariants (fav : String) : List String :=
  fav :: ((match kicktippToApi fav with | some a => [a] | none => []) ++
    KICKTIPP_TO_API.filterMap (fun p => if p.2 == fav then some p.1 else none))

/-- Normalised comparison of a spread outcome name against the favorite
variants. -/
def matchesFav (fav : String) (n : String) : Bool :=
  (favVariants fav).any (fun v => normKey n == normKey v)

/-- Price of the first other-named outcome at the same point (the
`underdog_price` search of `Game._aggregate_spread`). -/
def underdogPrice (os : List Outcome) (o : Outcome) : Option ℚ :=
  (os.find? (fun o2 => o2.point == o.point && !(normKey o2.name == normKey o.name))).map
    (fun o2 => o2.price)

/-- Favorite-relative spread tuples `(point, favorite price, underdog price)`
contributed by one bookmaker in `Game._aggregate_spread`.  An outcome without
a point value is skipped (in the source a missing point would be malformed
provider data). -/
def bookSpreadTuples (b : Bookmaker) : List (ℚ × ℚ × Option ℚ) :=
  match bookFavorite b with
  | none => []
  | some fav =>
    concatMapF (fun m =>
      if m.key == "spreads" then
        m.outcomes.filterMap (fun o =>
          if matchesFav fav o.name then
            match o.point with
            | some pt => some (pt, o.price, underdogPrice m.outcomes o)
            | none => none
          else none)
      else []) b.markets

/-- The `spreads` list of `Game._aggregate_spread`. -/
def spreadTuples (e : Event) : List (ℚ × ℚ × Option ℚ) :=
  concatMapF bookSpreadTuples e.bookmakers

/-- First components of collected tuples (the values counted by `Counter`). -/
def fstList {α : Type} (l : List (ℚ × α)) : List ℚ := l.map (fun t => t.1)

/-- `max(point_counter.values())`. -/
def maxCountQ (pts : List ℚ) : ℕ :=
  (dedupFirst pts).foldl (fun m p => max m (pts.count p)) 0

/-- Points tied for the highest bookmaker vote count, in Counter insertion
order (the `candidates` list). -/
def candidatesOf (pts : List ℚ) : List ℚ :=
  (dedupFirst pts).filter (fun p => pts.count p == maxCountQ pts)

/-- Average `|favorite_price - underdog_price|` at a candidate spread point;
`none` models the float infinity used when no gap data exists. -/
def spreadGap (l : List (ℚ × ℚ × Option ℚ)) (p : ℚ) : Option ℚ :=
  let ds := l.filterMap (fun t =>
    if t.1 == p then t.2.2.map (fun u => |t.2.1 - u|) else none)
  if ds.isEmpty then none else some (ds.sum / (ds.length : ℚ))

/-- Consensus spread point: majority vote, ties broken by the lowest average
price gap (`best_point` of `Game._aggregate_spread`).  The empty case is
unreachable because the caller returns `None` first. -/
def bestSpreadPoint (l : List (ℚ × ℚ × Option ℚ)) : ℚ :=
  match candidatesOf (fstList l) with
  | [p] => p
  | c :: cs => argminFirst (spreadGap l) c cs
  | [] => 0

/-- Aggregated spread result of `Game._aggregate_spread`. -/
structure SpreadInfo where
  point : ℚ
  price : Option ℚ
deriving DecidableEq

/-- `Game._aggregate_spread`. -/
def aggSpread (e : Event) : Option SpreadInfo :=
  let l := spreadTuples e
  if l.isEmpty then none
  else
    let best := bestSpreadPoint l
    let prices := l.filterMap (fun t => if t.1 == best then some t.2.1 else none)
    some { point := best,
           price := if prices.isEmpty then none else some (round2 (medianQ prices)) }

/-- Totals tuples `(point, over price, under price)` contributed by one
bookmaker in `Game._aggregate_totals`: the last Over outcome supplies price
and point, the last Under outcome supplies the under price. -/
def bookTotalsTuples (b : Bookmaker) : List (ℚ × ℚ × ℚ) :=
  concatMapF (fun m =>
    if m.key == "totals" then
      match (m.outcomes.filter (fun o => o.name == "Over")).getLast?,
            (m.outcomes.filter (fun o => o.name == "Under")).getLast? with
      | some ov, some un =>
        match ov.point with
        | some pt => [(pt, ov.price, un.price)]
        | none => []
      | _, _ => []
    else []) b.markets

/-- The `totals` list of `Game._aggregate_totals`. -/
def totalsTuples (e : Event) : List (ℚ × ℚ × ℚ) :=
  concatMapF bookTotalsTuples e.bookmakers

/-- Average `|over_price - under_price|` at a candidate totals point. -/
def totalsGap (l : List (ℚ × ℚ × ℚ)) (p : ℚ) : Option ℚ :=
  let ds := l.filterMap (fun t => if t.1 == p then some |t.2.1 - t.2.2| else none)
  if ds.isEmpty then none else some (ds.sum / (ds.length : ℚ))

/-- Consensus totals point (`best_point` of `Game._aggregate_totals`). -/
def bestTotalsPoint (l : List (ℚ × ℚ × ℚ)) : ℚ :=
  match candidatesOf (fstList l) with
  | c :: cs => argminFirst (totalsGap l) c cs
  | [] => 0

/-- Aggregated totals result of `Game._aggregate_totals`. -/
structure TotalsInfo where
  point : ℚ
  price : Option ℚ
  under : Option ℚ
deriving DecidableEq

/-- `Game._aggregate_totals`. -/
def aggTotals (e : Event) : Option TotalsInfo :=
  let l := totalsTuples e
  if l.isEmpty then none
  else
    let best := bestTotalsPoint l
    let overs := l.filterMap (fun t => if t.1 == best then some t.2.1 else none)
    let unders := l.filterMap (fun t => if t.1 == best then some t.2.2 else none)
    some { point := round2 best,
           price := if overs.isEmpty then none else some (round2 (medianQ overs)),
           under := if unders.isEmpty then none else some (round2 (medianQ unders)) }

/-- Raw favorite-side spread points of the event (the `fav_spreads` collection
in the smart branch of `Game.calculate_tip`, which matches names exactly
against the favorite and its provider-name variant). -/
def favSpreadsRaw (e : Event) (fav : String) : List ℚ :=
  let names := fav :: (match kicktippToApi fav with | some a => [a] | none => [])
  concatMapF (fun b =>
    concatMapF (fun m =>
      if m.key == "spreads" then
        m.outcomes.filterMap (fun o => if names.contains o.name then o.point else none)
      else []) b.markets) e.bookmakers

/-- Resolved goal difference (the `spread` variable, lines 236-281 of game.py),
given the favorite determined from the aggregated h2h mapping. -/
def resolvedSpread (e : Event) (fav : Option String) : ℤ :=
  match aggSpread e with
  | none => 1
  | some si =>
    let favSpreads := match fav with | none => [] | some f => favSpreadsRaw e f
    if favSpreads.isEmpty then
      if si.point == 0 then 1 else pyRound |si.point|
    else
      let avg := favSpreads.sum / (favSpreads.length : ℚ)
      let absC := |si.point|
      let sign : ℤ := if 0 ≤ si.point then 1 else -1
      if absC.den == 1 then
        if absC < |avg| then sign * (absC.num + 1) else sign * absC.num
      else sign * ratCeil absC

/-- Total goals before the odd/even nudge (lines 223-290 of game.py): the
aggregated totals line rounded toward the cheaper of over and under. -/
def totalGoalsPre (e : Event) : ℤ :=
  match aggTotals e with
  | none => ratTrunc 2
  | some ti =>
    let tv := round2 ti.point
    match ti.price, ti.under with
    | some ov, some un => if ov < un then ratCeil tv else ratFloor tv
    | _, _ => ratTrunc tv

/-- Final total goals after the spread-zero odd-total nudge (lines 292-301). -/
def totalGoalsFinal (e : Event) (spread : ℤ) : ℤ :=
  let t := totalGoalsPre e
  match aggTotals e with
  | none => t
  | some ti =>
    if spread == 0 && t % 2 == 1 then
      let tv := round2 ti.point
      if (t : ℚ) < ti.point then ratCeil tv else ratFloor tv
    else t

/-- Goal distribution step of the smart strategy (lines 303-318): split the
total around the spread toward the tendency, patch an undershoot, clamp at 0. -/
def distributeGoals (tendenz home away : String) (spread t : ℤ) : ℤ × ℤ :=
  if tendenz == home then
    let base := (t - spread) / 2
    let hg := base + spread
    let ag := base
    (max 0 (if hg + ag < t then hg + 1 else hg), max 0 ag)
  else if tendenz == away then
    let base := (t - spread) / 2
    let ag := base + spread
    let hg := base
    (max 0 hg, max 0 (if hg + ag < t then ag + 1 else ag))
  else (max 0 (t / 2), max 0 (t / 2))

/-- Errors surfaced by `Game.calculate_tip` in the embedding. -/
inductive TipError where
  | valueError
  | indexError
deriving DecidableEq

/-- Resolved spread of the smart branch, derived from the event alone. -/
def smartSpread (e : Event) : ℤ := resolvedSpread e (tendencyOf e)

/-- Final total goals of the smart branch, derived from the event alone. -/
def smartTotal (e : Event) : ℤ := totalGoalsFinal e (smartSpread e)

/-- Smart branch of `Game.calculate_tip` (lines 96-331).  `valueError` models
the exception Python `min` raises when the aggregated h2h mapping is empty. -/
def smartTip (e : Event) (home away : String) : Except TipError (ℤ × ℤ) :=
  match tendencyOf e with
  | none => .error .valueError
  | some td => .ok (distributeGoals td home away (smartSpread e) (smartTotal e))

/-- Classic strategy core (lines 78-94) on the two raw quotes and the random
bit drawn by `random.randint(0, 1)`. -/
def classicCore (homeQ awayQ : ℚ) (r : ℤ) : ℤ × ℤ :=
  let d := homeQ - awayQ
  let coefficient : ℚ := if 7 < |d| then 3/10 else 3/4
  if |d| < 1/4 then (r, r)
  else if d < 0 then (max 0 (pyRound (-d * coefficient)) + r, r)
  else (r, max 0 (pyRound (d * coefficient)) + r)

/-- Classic path of `Game.calculate_tip` including the legacy quote-list
indexing `self.quotes[0]` and `self.quotes[2]` (lines 72-94); an index out of
range surfaces as `indexError`. -/
def classicTip (quotes : List ℚ) (r : ℤ) : Except TipError (ℤ × ℤ) :=
  match quotes[0]?, quotes[2]? with
  | some h, some a => .ok (classicCore h a r)
  | _, _ => .error .indexError

/-- Strategy dispatch of `Game.calculate_tip` (line 72): classic strategy, a
missing matched event or a missing odds client all select the classic path. -/
def calculateTip (strategy : String) (hasClient : Bool) (oddsEvent : Option Event)
    (quotes : List ℚ) (r : ℤ) (home away : String) : Except TipError (ℤ × ℤ) :=
  match oddsEvent with
  | none => classicTip quotes r
  | some e =>
    if strategy == "classic" || !hasClient then classicTip quotes r
    else smartTip e home away

/-- `Game._validate_quotes`: length check on the legacy quote set (the numeric
conversion is a given since quotes are modelled as rationals). -/
def validateQuotes (quotes : List ℚ) : Except TipError (List ℚ) :=
  if quotes.length ≠ 3 then .error .valueError else .ok quotes

/-- Raw odds provider payload, kept abstract as a list of events. -/
abbrev Snapshot := List Event

/-- In-memory cache state of `OddsApiClient`. -/
structure ClientState where
  cache : Option Snapshot
  cacheTime : Option ℤ
deriving DecidableEq

/-- `CACHE_TTL` of odds_api.py, in seconds. -/
def CACHE_TTL : ℤ := 6 * 3600

/-- `OddsApiClient._is_cache_valid` (time measured in seconds). -/
def isCacheValid (alwaysUseFile : Bool) (st : ClientState) (now : ℤ) : Bool :=
  if alwaysUseFile then st.cache.isSome
  else
    match st.cache, st.cacheTime with
    | some _, some t => now - t < CACHE_TTL
    | _, _ => false

/-- Observable outcome of one `fetch_odds` call. -/
structure FetchResult where
  returned : Option Snapshot
  state : ClientState
  networkCalled : Bool
deriving DecidableEq

/-- `OddsApiClient.fetch_odds`.  The network interaction is made explicit:
`response` is what `requests.get` would deliver, and `networkCalled` records
whether the request would have been issued at all. -/
def fetchOdds (alwaysUseFile forceRefresh : Bool) (st : ClientState)
    (response : Except Unit Snapshot) (now : ℤ) : FetchResult :=
  if alwaysUseFile && st.cache.isSome then
    { returned := st.cache, state := st, networkCalled := false }
  else if !forceRefresh && isCacheValid alwaysUseFile st now then
    { returned := st.cache, state := st, networkCalled := false }
  else
    match response with
    | .ok data =>
      { returned := some data,
        state := { cache := some data, cacheTime := some now },
        networkCalled := true }
    | .error _ => { returned := st.cache, state := st, networkCalled := true }

/-- One audit-log record written by `Game._persist_used_odds`. -/
structure UsedOddsRecord where
  datetimeStr : String
  gameTimeStr : String
  homeTeam : String
  awayTeam : String
  strategy : String
  tip : ℤ × ℤ
  quotes : List ℚ
  usedH2h : List (String × Option ℚ)
  usedSpread : Option ℚ
  usedTotals : Option ℚ
deriving DecidableEq

/-- Content of the audit-log file as found on disk. -/
inductive LogFile where
  | absent
  | corrupt
  | nonArray
  | jsonArray (records : List UsedOddsRecord)
deriving DecidableEq

/-- Observable outcome of one `_persist_used_odds` call: resulting file
content, number of warnings logged, and whether an exception escaped. -/
structure PersistResult where
  file : LogFile
  warnings : ℕ
  raised : Bool
deriving DecidableEq

/-- `Game._persist_used_odds`.  The function contains no logging call at all;
its outer `try` swallows every I/O failure with a bare `pass` (`ioFail`
injects such a failure; the partially-written file content of a failed write
is not modelled and reported unchanged).  An unreadable or non-array existing
file is replaced by a fresh array. -/
def persistUsedOdds (enabled : Bool) (file : LogFile) (ioFail : Bool)
    (data : UsedOddsRecord) : PersistResult :=
  if !enabled then { file := file, warnings := 0, raised := false }
  else if ioFail then { file := file, warnings := 0, raised := false }
  else
    let arr := match file with
      | .jsonArray l => l
      | _ => []
    { file := .jsonArray (arr ++ [data]), warnings := 0, raised := false }

/-- Modelled from the spec: remove the minimum and the maximum each exactly
once from a sample (the winsorizing step as the spec describes it). -/
def trimOnce (l : List ℚ) : List ℚ :=
  match listMin l, listMax l with
  | some m, some M => (l.erase m).erase M
  | _, _ => l

/-- Modelled from the spec: h2h aggregation described as the median of the
min/max-trimmed sample when more than two quotes exist, the plain median
otherwise, rounded to two decimals. -/
def aggH2HSpec (e : Event) (name : String) : Option ℚ :=
  let ps := h2hPrices e name
  if ps.isEmpty then none
  else some (round2 (medianQ (if 2 < ps.length then trimOnce ps else ps)))

/-- Modelled from the spec: the classic strategy formula written with the
absolute quote difference and the favored side. -/
def classicSpec (homeQ awayQ : ℚ) (r : ℤ) : ℤ × ℤ :=
  let d := homeQ - awayQ
  if |d| < 1/4 then (r, r)
  else
    let coefficient : ℚ := if 7 < |d| then 3/10 else 3/4
    let favGoals := max 0 (pyRound (|d| * coefficient)) + r
    if d < 0 then (favGoals, r) else (r, favGoals)

/-- Point selection among the spread candidates is decisive: some candidate
has a strictly smaller average price gap than every other candidate (a lone
majority point is the degenerate case). -/
def SpreadDecisive (e : Event) : Prop :=
  ∃ p, p ∈ candidatesOf (fstList (spreadTuples e)) ∧
    ∀ q ∈ candidatesOf (fstList (spreadTuples e)), q ≠ p →
      gapLt (spreadGap (spreadTuples e) p) (spreadGap (spreadTuples e) q) = true

/-- Point selection among the totals candidates is decisive. -/
def TotalsDecisive (e : Event) : Prop :=
  ∃ p, p ∈ candidatesOf (fstList (totalsTuples e)) ∧
    ∀ q ∈ candidatesOf (fstList (totalsTuples e)), q ≠ p →
      gapLt (totalsGap (totalsTuples e) p) (totalsGap (totalsTuples e) q) = true

/-- Event with four bookmakers quoting the same h2h outcome at 1.0, 100.0,
2.0 and 2.1 (the winsorized-median example of the spec). -/
def c4Event : Event :=
  { bookmakers :=
      [ { title := "B1", markets := [ { key := "h2h", outcomes := [ { name := "TeamX", price := 1, point := none } ] } ] },
        { title := "B2", markets := [ { key := "h2h", outcomes := [ { name := "TeamX", price := 100, point := none } ] } ] },
        { title := "B3", markets := [ { key := "h2h", outcomes := [ { name := "TeamX", price := 2, point := none } ] } ] },
        { title := "B4", markets := [ { key := "h2h", outcomes := [ { name := "TeamX", price := 21/10, point := none } ] } ] } ] }

/-- Event whose aggregated h2h favors the draw while the totals line resolves
to 3 goals: one bookmaker with h2h (home 3.0, draw 2.0, away 4.0) and totals
(over 2.0, under 1.0 at line 3.0), no spread market. -/
def c1DrawEvent : Event :=
  { bookmakers :=
      [ { title := "B1",
          markets :=
            [ { key := "h2h",
                outcomes :=
                  [ { name := "HomeFC", price := 3, point := none },
                    { name := "Draw", price := 2, point := none },
                    { name := "AwayFC", price := 4, point := none } ] },
              { key := "totals",
                outcomes :=
                  [ { name := "Over", price := 2, point := some 3 },
                    { name := "Under", price := 1, point := none } ] } ] } ] }

/-- Event whose aggregated h2h favors the home team, with no spread or totals
market (fallback spread 1, fallback total 2). -/
def c1HomeEvent : Event :=
  { bookmakers :=
      [ { title := "B1",
          markets :=
            [ { key := "h2h",
                outcomes :=
                  [ { name := "HomeFC", price := 1, point := none },
                    { name := "Draw", price := 3, point := none },
                    { name := "AwayFC", price := 4, point := none } ] } ] } ] }

/-- Matched event carrying no h2h market at all. -/
def c3NoH2hEvent : Event := { bookmakers := [ { title := "B1", markets := [] } ] }

/-- Bookmaker quoting spread point 0 with favorite/underdog gap 1 and totals
line 2 with over/under gap 1 (h2h favorite X). -/
def tieBook1 : Bookmaker :=
  { title := "B1",
    markets :=
      [ { key := "h2h",
          outcomes :=
            [ { name := "X", price := 1, point := none },
              { name := "Y", price := 3, point := none } ] },
        { key := "spreads",
          outcomes :=
            [ { name := "X", price := 2, point := some 0 },
              { name := "Y", price := 3, point := some 0 } ] },
        { key := "totals",
          outcomes :=
            [ { name := "Over", price := 2, point := some 2 },
              { name := "Under", price := 3, point := none } ] } ] }

/-- Bookmaker quoting spread point 1 with the same gap 1, and totals line 3
with the same over/under gap 1 as `tieBook1`. -/
def tieBook2 : Bookmaker :=
  { title := "B2",
    markets :=
      [ { key := "h2h",
          outcomes :=
            [ { name := "X", price := 1, point := none },
              { name := "Y", price := 3, point := none } ] },
        { key := "spreads",
          outcomes :=
            [ { name := "X", price := 2, point := some 1 },
              { name := "Y", price := 3, point := some 1 } ] },
        { key := "totals",
          outcomes :=
            [ { name := "Over", price := 2, point := some 3 },
              { name := "Under", price := 3, point := none } ] } ] }

/-- Two bookmakers voting 1-1 for spread points 0 and 1 with equal average
price gaps, and 1-1 for totals lines 2 and 3 with equal gaps. -/
def c7EventA : Event := { bookmakers := [tieBook1, tieBook2] }

/-- The same two bookmakers in the opposite order. -/
def c7EventB : Event := { bookmakers := [tieBook2, tieBook1] }

/-- Bookmaker quoting spread point 0 with favorite/underdog gap 2 and totals
line 2 with over/under gap 3. -/
def decBook1 : Bookmaker :=
  { title := "B1",
    markets :=
      [ { key := "h2h",
          outcomes :=
            [ { name := "X", price := 1, point := none },
              { name := "Y", price := 3, point := none } ] },
        { key := "spreads",
          outcomes :=
            [ { name := "X", price := 2, point := some 0 },
              { name := "Y", price := 4, point := some 0 } ] },
        { key := "totals",
          outcomes :=
            [ { name := "Over", price := 2, point := some 2 },
              { name := "Under", price := 5, point := none } ] } ] }

/-- Bookmaker quoting spread point 1 with gap 1 and totals line 3 with
over/under gap 1. -/
def decBook2 : Bookmaker :=
  { title := "B2",
    markets :=
      [ { key := "h2h",
          outcomes :=
            [ { name := "X", price := 1, point := none },
              { name := "Y", price := 3, point := none } ] },
        { key := "spreads",
          outcomes :=
            [ { name := "X", price := 2, point := some 1 },
              { name := "Y", price := 3, point := some 1 } ] },
        { key := "totals",
          outcomes :=
            [ { name := "Over", price := 2, point := some 3 },
              { name := "Under", price := 3, point := none } ] } ] }

/-- Two bookmakers with tied vote counts but strictly distinct average gaps:
spread points 0 (gap 2) versus 1 (gap 1), totals lines 2 (gap 3) versus 3
(gap 1). -/
def c5Event : Event := { bookmakers := [decBook1, decBook2] }

/-- The same two decisive bookmakers in the opposite order. -/
def c5EventRev : Event := { bookmakers := [decBook2, decBook1] }

/-- Sample audit-log record. -/
def sampleRecord : UsedOddsRecord :=
  { datetimeStr := "2025-01-01T12:00:00",
    gameTimeStr := "2025-01-01T15:30:00",
    homeTeam := "HomeFC",
    awayTeam := "AwayFC",
    strategy := "classic",
    tip := (2, 0),
    quotes := [2, 7/2, 4],
    usedH2h := [],
    usedSpread := none,
    usedTotals := none }

/-! Infrastructure lemmas. -/

theorem sortQ_perm (l : List ℚ) : (sortQ l).Perm l := List.perm_insertionSort _ l

theorem sortQ_sorted (l : List ℚ) : List.Sorted (· ≤ ·) (sortQ l) :=
  List.sorted_insertionSort _ l

theorem sortQ_eq_of_perm {l l2 : List ℚ} (h : l.Perm l2) : sortQ l = sortQ l2 := by
  apply List.eq_of_perm_of_sorted (r := (· ≤ ·))
  · exact (sortQ_perm l).trans (h.trans (sortQ_perm l2).symm)
  · exact sortQ_sorted l
  · exact sortQ_sorted l2

theorem medianQ_perm {l l2 : List ℚ} (h : l.Perm l2) : medianQ l = medianQ l2 := by
  unfold medianQ
  rw [sortQ_eq_of_perm h]

theorem aggValue_perm {l l2 : List ℚ} (h : l.Perm l2) : aggValue l = aggValue l2 := by
  unfold aggValue trimCode
  rw [h.length_eq, sortQ_eq_of_perm h]
  by_cases h2 : 2 < l2.length
  · rw [if_pos h2, if_pos h2]
  · rw [if_neg h2, if_neg h2, medianQ_perm h]

theorem concatMapF_perm {α β : Type} (f : α → List β) {l1 l2 : List α}
    (h : l1.Perm l2) : (concatMapF f l1).Perm (concatMapF f l2) := by
  induction h with
  | nil => exact List.Perm.refl _
  | cons a h ih =>
    simp only [concatMapF]
    exact ih.append_left (f a)
  | swap x y l =>
    simp only [concatMapF, ← List.append_assoc]
    exact (List.perm_append_comm).append_right _
  | trans h1 h2 ih1 ih2 => exact ih1.trans ih2

theorem isEmpty_eq_of_perm {α : Type} {l1 l2 : List α} (h : l1.Perm l2) :
    l1.isEmpty = l2.isEmpty := by
  cases l1 with
  | nil => rw [List.perm_nil.mp h.symm]
  | cons a l =>
    cases l2 with
    | nil => exact absurd (List.perm_nil.mp h) (by simp)
    | cons b m => rfl

theorem mem_dedupFirstAux {α : Type} [DecidableEq α] (x : α) (l : List α) :
    ∀ seen : List α, x ∈ dedupFirstAux seen l ↔ x ∈ l ∧ x ∉ seen := by
  induction l with
  | nil => intro seen; simp [dedupFirstAux]
  | cons a as ih =>
    intro seen
    rw [dedupFirstAux]
    by_cases ha : a ∈ seen
    · rw [if_pos ha, ih seen]
      constructor
      · rintro ⟨hx, hs⟩
        exact ⟨List.mem_cons_of_mem a hx, hs⟩
      · rintro ⟨hx, hs⟩
        rcases List.mem_cons.mp hx with rfl | hx2
        · exact absurd ha hs
        · exact ⟨hx2, hs⟩
    · rw [if_neg ha]
      simp only [List.mem_cons, ih (a :: seen)]
      by_cases hxa : x = a
      · subst hxa; tauto
      · tauto

theorem nodup_dedupFirstAux {α : Type} [DecidableEq α] (l : List α) :
    ∀ seen : List α, (dedupFirstAux seen l).Nodup := by
  induction l with
  | nil => intro seen; simp [dedupFirstAux]
  | cons a as ih =>
    intro seen
    rw [dedupFirstAux]
    by_cases ha : a ∈ seen
    · rw [if_pos ha]; exact ih seen
    · rw [if_neg ha]
      refine List.nodup_cons.mpr ⟨?_, ih (a :: seen)⟩
      intro hmem
      exact ((mem_dedupFirstAux a as (a :: seen)).mp hmem).2 (List.mem_cons_self a seen)

theorem mem_dedupFirst {α : Type} [DecidableEq α] {x : α} {l : List α} :
    x ∈ dedupFirst l ↔ x ∈ l := by
  rw [dedupFirst, mem_dedupFirstAux]
  simp

theorem nodup_dedupFirst {α : Type} [DecidableEq α] (l : List α) :
    (dedupFirst l).Nodup :=
  nodup_dedupFirstAux l []

theorem dedupFirst_perm {α : Type} [DecidableEq α] {l1 l2 : List α} (h : l1.Perm l2) :
    (dedupFirst l1).Perm (dedupFirst l2) := by
  apply List.Subperm.antisymm
  · apply (nodup_dedupFirst l1).subperm
    intro x hx
    exact mem_dedupFirst.mpr (h.mem_iff.mp (mem_dedupFirst.mp hx))
  · apply (nodup_dedupFirst l2).subperm
    intro x hx
    exact mem_dedupFirst.mpr (h.mem_iff.mpr (mem_dedupFirst.mp hx))

theorem foldl_max_perm (f : ℚ → ℕ) {l1 l2 : List ℚ} (h : l1.Perm l2) :
    ∀ n : ℕ, l1.foldl (fun m p => max m (f p)) n = l2.foldl (fun m p => max m (f p)) n := by
  induction h with
  | nil => intro n; rfl
  | cons a h ih =>
    intro n
    simp only [List.foldl_cons]
    exact ih _
  | swap x y l =>
    intro n
    simp only [List.foldl_cons]
    rw [Nat.max_assoc, Nat.max_comm (f y) (f x), ← Nat.max_assoc]
  | trans h1 h2 ih1 ih2 =>
    intro n
    rw [ih1 n, ih2 n]

theorem maxCountQ_perm {l1 l2 : List ℚ} (h : l1.Perm l2) : maxCountQ l1 = maxCountQ l2 := by
  unfold maxCountQ
  simp only [h.count_eq]
  exact foldl_max_perm (fun p => l2.count p) (dedupFirst_perm h) 0

theorem candidatesOf_perm {l1 l2 : List ℚ} (h : l1.Perm l2) :
    (candidatesOf l1).Perm (candidatesOf l2) := by
  unfold candidatesOf
  simp only [h.count_eq, maxCountQ_perm h]
  exact (dedupFirst_perm h).filter _

theorem gapLt_trans {a b c : Option ℚ} (h1 : gapLt a b = true) (h2 : gapLt b c = true) :
    gapLt a c = true := by
  cases a <;> cases b <;> cases c <;> simp [gapLt] at * <;> linarith

theorem gapLt_irrefl (a : Option ℚ) : gapLt a a = false := by
  cases a <;> simp [gapLt]

theorem gapLt_not_lt_trans {a b c : Option ℚ} (h1 : gapLt a b = false) (h2 : gapLt b c = false) :
    gapLt a c = false := by
  cases a <;> cases b <;> cases c <;> simp [gapLt] at * <;> linarith

theorem argminFirst_cons (f : ℚ → Option ℚ) (c d : ℚ) (ds : List ℚ) :
    argminFirst f c (d :: ds) = argminFirst f (if gapLt (f d) (f c) then d else c) ds := rfl

theorem argminFirst_mem (f : ℚ → Option ℚ) (cs : List ℚ) :
    ∀ c, argminFirst f c cs ∈ c :: cs := by
  induction cs with
  | nil => intro c; simp [argminFirst]
  | cons d ds ih =>
    intro c
    rw [argminFirst_cons]
    by_cases hlt : gapLt (f d) (f c) = true
    · rw [if_pos hlt]
      exact List.mem_cons_of_mem c (ih d)
    · rw [if_neg hlt]
      rcases List.mem_cons.mp (ih c) with h1 | h1
      · rw [h1]
        exact List.mem_cons_self c (d :: ds)
      · exact List.mem_cons_of_mem c (List.mem_cons_of_mem d h1)

theorem argminFirst_not_lt (f : ℚ → Option ℚ) (cs : List ℚ) :
    ∀ c, ∀ q ∈ c :: cs, gapLt (f q) (f (argminFirst f c cs)) = false := by
  induction cs with
  | nil =>
    intro c q hq
    rcases List.mem_cons.mp hq with rfl | h
    · simpa [argminFirst] using gapLt_irrefl (f q)
    · simp at h
  | cons d ds ih =>
    intro c q hq
    rw [argminFirst_cons]
    by_cases hlt : gapLt (f d) (f c) = true
    · rw [if_pos hlt]
      rcases List.mem_cons.mp hq with rfl | hq2
      · have hd := ih d d (List.mem_cons_self d ds)
        by_contra hc
        rw [Bool.not_eq_false] at hc
        have := gapLt_trans hlt hc
        rw [hd] at this
        simp at this
      · exact ih d q hq2
    · rw [if_neg hlt]
      rw [Bool.not_eq_true] at hlt
      rcases List.mem_cons.mp hq with hq1 | hq2
      · rw [hq1]
        exact ih c c (List.mem_cons_self c ds)
      · rcases List.mem_cons.mp hq2 with hq1 | hq3
        · rw [hq1]
          exact gapLt_not_lt_trans hlt (ih c c (List.mem_cons_self c ds))
        · exact ih c q (List.mem_cons_of_mem c hq3)

theorem argminFirst_eq_of_strict (f : ℚ → Option ℚ) (c : ℚ) (cs : List ℚ) (p : ℚ)
    (hp : p ∈ c :: cs)
    (hmin : ∀ q ∈ c :: cs, q ≠ p → gapLt (f p) (f q) = true) :
    argminFirst f c cs = p := by
  by_contra hne
  have h1 := hmin (argminFirst f c cs) (argminFirst_mem f cs c) hne
  have h2 := argminFirst_not_lt f cs c p hp
  rw [h2] at h1
  simp at h1

theorem foldl_min_mem (as : List ℚ) : ∀ a, as.foldl min a ∈ a :: as := by
  induction as with
  | nil => intro a; simp
  | cons b bs ih =>
    intro a
    rw [List.foldl_cons]
    rcases List.mem_cons.mp (ih (min a b)) with h | h
    · rw [h]
      rcases le_total a b with hab | hab
      · rw [min_eq_left hab]
        exact List.mem_cons_self _ _
      · rw [min_eq_right hab]
        exact List.mem_cons_of_mem _ (List.mem_cons_self _ _)
    · exact List.mem_cons_of_mem _ (List.mem_cons_of_mem _ h)

theorem foldl_min_le (as : List ℚ) : ∀ a, ∀ x ∈ a :: as, as.foldl min a ≤ x := by
  induction as with
  | nil =>
    intro a x hx
    rcases List.mem_cons.mp hx with h | h
    · rw [List.foldl_nil, h]
    · simp at h
  | cons b bs ih =>
    intro a x hx
    rw [List.foldl_cons]
    have hle : bs.foldl min (min a b) ≤ min a b :=
      ih (min a b) (min a b) (List.mem_cons_self _ _)
    rcases List.mem_cons.mp hx with h | h
    · rw [h]
      exact hle.trans (min_le_left a b)
    · rcases List.mem_cons.mp h with h2 | h2
      · rw [h2]
        exact hle.trans (min_le_right a b)
      · exact ih (min a b) x (List.mem_cons_of_mem _ h2)

theorem foldl_max_mem (as : List ℚ) : ∀ a, as.foldl max a ∈ a :: as := by
  induction as with
  | nil => intro a; simp
  | cons b bs ih =>
    intro a
    rw [List.foldl_cons]
    rcases List.mem_cons.mp (ih (max a b)) with h | h
    · rw [h]
      rcases le_total a b with hab | hab
      · rw [max_eq_right hab]
        exact List.mem_cons_of_mem _ (List.mem_cons_self _ _)
      · rw [max_eq_left hab]
        exact List.mem_cons_self _ _
    · exact List.mem_cons_of_mem _ (List.mem_cons_of_mem _ h)

theorem foldl_max_ge (as : List ℚ) : ∀ a, ∀ x ∈ a :: as, x ≤ as.foldl max a := by
  induction as with
  | nil =>
    intro a x hx
    rcases List.mem_cons.mp hx with h | h
    · rw [List.foldl_nil, h]
    · simp at h
  | cons b bs ih =>
    intro a x hx
    rw [List.foldl_cons]
    have hle : max a b ≤ bs.foldl max (max a b) :=
      ih (max a b) (max a b) (List.mem_cons_self _ _)
    rcases List.mem_cons.mp hx with h | h
    · rw [h]
      exact (le_max_left a b).trans hle
    · rcases List.mem_cons.mp h with h2 | h2
      · rw [h2]
        exact (le_max_right a b).trans hle
      · exact ih (max a b) x (List.mem_cons_of_mem _ h2)

theorem listMin_spec {l : List ℚ} (hne : l ≠ []) :
    ∃ m, listMin l = some m ∧ m ∈ l ∧ ∀ x ∈ l, m ≤ x := by
  cases l with
  | nil => exact absurd rfl hne
  | cons a as => exact ⟨as.foldl min a, rfl, foldl_min_mem as a, foldl_min_le as a⟩

theorem listMax_spec {l : List ℚ} (hne : l ≠ []) :
    ∃ M, listMax l = some M ∧ M ∈ l ∧ ∀ x ∈ l, x ≤ M := by
  cases l with
  | nil => exact absurd rfl hne
  | cons a as => exact ⟨as.foldl max a, rfl, foldl_max_mem as a, foldl_max_ge as a⟩

theorem sorted_head_le {a : ℚ} {t : List ℚ} (hs : List.Sorted (· ≤ ·) (a :: t)) :
    ∀ x ∈ a :: t, a ≤ x := by
  intro x hx
  rcases List.mem_cons.mp hx with h | h
  · exact h.symm.le
  · exact (List.sorted_cons.mp hs).1 x h

theorem sorted_le_getLast : ∀ {s : List ℚ}, List.Sorted (· ≤ ·) s →
    ∀ (hne : s ≠ []), ∀ x ∈ s, x ≤ s.getLast hne := by
  intro s
  induction s with
  | nil => intro _ hne; exact absurd rfl hne
  | cons a t ih =>
    intro hs hne x hx
    cases t with
    | nil =>
      rcases List.mem_cons.mp hx with h | h
      · rw [List.getLast_singleton]
        exact h.le
      · simp at h
    | cons b u =>
      rw [List.getLast_cons (List.cons_ne_nil b u)]
      rcases List.mem_cons.mp hx with h | h
      · rw [h]
        exact (List.sorted_cons.mp hs).1 _ (List.getLast_mem (List.cons_ne_nil b u))
      · exact ih (List.sorted_cons.mp hs).2 (List.cons_ne_nil b u) x h

theorem trimCode_perm_trimOnce {l : List ℚ} (hlen : 2 < l.length) :
    (trimCode l).Perm (trimOnce l) := by
  have hlne : l ≠ [] := by
    intro h
    rw [h] at hlen
    simp at hlen
  obtain ⟨m, hmeq, hmmem, hmle⟩ := listMin_spec hlne
  obtain ⟨M, hMeq, hMmem, hMge⟩ := listMax_spec hlne
  rw [trimOnce, hmeq, hMeq]
  have hs := sortQ_perm l
  have hsorted := sortQ_sorted l
  have hlen2 : 2 < (sortQ l).length := by rw [hs.length_eq]; exact hlen
  rw [trimCode]
  cases hsq : sortQ l with
  | nil =>
    rw [hsq] at hlen2
    simp at hlen2
  | cons a t =>
    rw [hsq] at hs hsorted hlen2
    have htne : t ≠ [] := by
      intro h
      rw [h] at hlen2
      simp at hlen2
    have ham : a = m := by
      apply le_antisymm
      · exact sorted_head_le hsorted m (hs.mem_iff.mpr hmmem)
      · exact hmle a (hs.mem_iff.mp (List.mem_cons_self a t))
    have hM : t.getLast htne = M := by
      have h1 : (a :: t).getLast (List.cons_ne_nil a t) = t.getLast htne :=
        List.getLast_cons htne
      apply le_antisymm
      · refine hMge _ (hs.mem_iff.mp ?_)
        rw [← h1]
        exact List.getLast_mem (List.cons_ne_nil a t)
      · have := sorted_le_getLast hsorted (List.cons_ne_nil a t) M (hs.mem_iff.mpr hMmem)
        rw [h1] at this
        exact this
    have hperm1 : (l.erase m).Perm t := by
      have h2 : (l.erase m).Perm ((a :: t).erase m) := (hs.symm).erase m
      rw [ham, List.erase_cons_head] at h2
      exact h2
    have hperm2 : (t.erase M).Perm t.dropLast := by
      have hdl : t.dropLast ++ [M] = t := by
        rw [← hM]
        exact List.dropLast_append_getLast htne
      have hMmem2 : M ∈ t.dropLast ++ [M] := by simp
      have p1 := List.perm_cons_erase hMmem2
      have p2 := List.perm_append_singleton M t.dropLast
      have p3 := (p1.symm.trans p2).cons_inv
      rw [hdl] at p3
      exact p3
    have hfinal : ((l.erase m).erase M).Perm t.dropLast :=
      (hperm1.erase M).trans hperm2
    simp only [List.drop_succ_cons, List.drop_zero]
    exact hfinal.symm

theorem bestSpreadPoint_eq_of_strict (l : List (ℚ × ℚ × Option ℚ)) (p : ℚ)
    (hp : p ∈ candidatesOf (fstList l))
    (hmin : ∀ q ∈ candidatesOf (fstList l), q ≠ p →
      gapLt (spreadGap l p) (spreadGap l q) = true) :
    bestSpreadPoint l = p := by
  unfold bestSpreadPoint
  cases hc : candidatesOf (fstList l) with
  | nil =>
    rw [hc] at hp
    simp at hp
  | cons c cs =>
    rw [hc] at hp hmin
    cases cs with
    | nil =>
      rcases List.mem_cons.mp hp with h | h
      · exact h.symm
      · simp at h
    | cons d ds =>
      exact argminFirst_eq_of_strict (spreadGap l) c (d :: ds) p hp hmin

theorem bestTotalsPoint_eq_of_strict (l : List (ℚ × ℚ × ℚ)) (p : ℚ)
    (hp : p ∈ candidatesOf (fstList l))
    (hmin : ∀ q ∈ candidatesOf (fstList l), q ≠ p →
      gapLt (totalsGap l p) (totalsGap l q) = true) :
    bestTotalsPoint l = p := by
  unfold bestTotalsPoint
  cases hc : candidatesOf (fstList l) with
  | nil =>
    rw [hc] at hp
    simp at hp
  | cons c cs =>
    rw [hc] at hp hmin
    exact argminFirst_eq_of_strict (totalsGap l) c cs p hp hmin

theorem spreadGap_perm {l1 l2 : List (ℚ × ℚ × Option ℚ)} (h : l1.Perm l2) (p : ℚ) :
    spreadGap l1 p = spreadGap l2 p := by
  have hfm := h.filterMap (fun t =>
    if t.1 == p then t.2.2.map (fun u => |t.2.1 - u|) else none)
  simp only [spreadGap]
  rw [isEmpty_eq_of_perm hfm, hfm.sum_eq, hfm.length_eq]

theorem totalsGap_perm {l1 l2 : List (ℚ × ℚ × ℚ)} (h : l1.Perm l2) (p : ℚ) :
    totalsGap l1 p = totalsGap l2 p := by
  have hfm := h.filterMap (fun t => if t.1 == p then some |t.2.1 - t.2.2| else none)
  simp only [totalsGap]
  rw [isEmpty_eq_of_perm hfm, hfm.sum_eq, hfm.length_eq]

theorem aggH2H_perm {e1 e2 : Event} (h : e1.bookmakers.Perm e2.bookmakers) (name : String) :
    aggH2H e1 name = aggH2H e2 name := by
  have hp : (h2hPrices e1 name).Perm (h2hPrices e2 name) := concatMapF_perm _ h
  simp only [aggH2H]
  rw [isEmpty_eq_of_perm hp, aggValue_perm hp]

theorem aggSpread_perm_of_decisive {e1 e2 : Event} (h : e1.bookmakers.Perm e2.bookmakers)
    (hdec : SpreadDecisive e1) : aggSpread e1 = aggSpread e2 := by
  obtain ⟨p, hp, hmin⟩ := hdec
  have hl : (spreadTuples e1).Perm (spreadTuples e2) := concatMapF_perm _ h
  have hpts : (fstList (spreadTuples e1)).Perm (fstList (spreadTuples e2)) := hl.map _
  have hcand := candidatesOf_perm hpts
  have hgap : ∀ q, spreadGap (spreadTuples e1) q = spreadGap (spreadTuples e2) q :=
    fun q => spreadGap_perm hl q
  have hb1 : bestSpreadPoint (spreadTuples e1) = p :=
    bestSpreadPoint_eq_of_strict _ p hp hmin
  have hb2 : bestSpreadPoint (spreadTuples e2) = p := by
    apply bestSpreadPoint_eq_of_strict
    · exact hcand.mem_iff.mp hp
    · intro q hq hqp
      rw [← hgap p, ← hgap q]
      exact hmin q (hcand.mem_iff.mpr hq) hqp
  have hpr := hl.filterMap (fun t => if t.1 == p then some t.2.1 else none)
  simp only [aggSpread]
  rw [isEmpty_eq_of_perm hl, hb1, hb2, isEmpty_eq_of_perm hpr, medianQ_perm hpr]

theorem aggTotals_perm_of_decisive {e1 e2 : Event} (h : e1.bookmakers.Perm e2.bookmakers)
    (hdec : TotalsDecisive e1) : aggTotals e1 = aggTotals e2 := by
  obtain ⟨p, hp, hmin⟩ := hdec
  have hl : (totalsTuples e1).Perm (totalsTuples e2) := concatMapF_perm _ h
  have hpts : (fstList (totalsTuples e1)).Perm (fstList (totalsTuples e2)) := hl.map _
  have hcand := candidatesOf_perm hpts
  have hgap : ∀ q, totalsGap (totalsTuples e1) q = totalsGap (totalsTuples e2) q :=
    fun q => totalsGap_perm hl q
  have hb1 : bestTotalsPoint (totalsTuples e1) = p :=
    bestTotalsPoint_eq_of_strict _ p hp hmin
  have hb2 : bestTotalsPoint (totalsTuples e2) = p := by
    apply bestTotalsPoint_eq_of_strict
    · exact hcand.mem_iff.mp hp
    · intro q hq hqp
      rw [← hgap p, ← hgap q]
      exact hmin q (hcand.mem_iff.mpr hq) hqp
  have hov := hl.filterMap (fun t => if t.1 == p then some t.2.1 else none)
  have hun := hl.filterMap (fun t => if t.1 == p then some t.2.2 else none)
  simp only [aggTotals]
  rw [isEmpty_eq_of_perm hl, hb1, hb2, isEmpty_eq_of_perm hov, medianQ_perm hov,
    isEmpty_eq_of_perm hun, medianQ_perm hun]

theorem distributeGoals_bounds (tendenz home away : String) (s t : ℤ) :
    0 ≤ (distributeGoals tendenz home away s t).1 ∧
    0 ≤ (distributeGoals tendenz home away s t).2 ∧
    t - 1 ≤ (distributeGoals tendenz home away s t).1 + (distributeGoals tendenz home away s t).2 ∧
    ((tendenz = home ∨ tendenz = away) →
      t ≤ (distributeGoals tendenz home away s t).1 + (distributeGoals tendenz home away s t).2) := by
  unfold distributeGoals
  by_cases hh : (tendenz == home) = true
  · rw [if_pos hh]
    dsimp only
    split_ifs with h1
    · refine ⟨le_max_left _ _, le_max_left _ _, ?_, fun _ => ?_⟩ <;> omega
    · refine ⟨le_max_left _ _, le_max_left _ _, ?_, fun _ => ?_⟩ <;> omega
  · rw [if_neg hh]
    by_cases ha : (tendenz == away) = true
    · rw [if_pos ha]
      dsimp only
      split_ifs with h1
      · refine ⟨le_max_left _ _, le_max_left _ _, ?_, fun _ => ?_⟩ <;> omega
      · refine ⟨le_max_left _ _, le_max_left _ _, ?_, fun _ => ?_⟩ <;> omega
    · rw [if_neg ha]
      dsimp only
      simp only [beq_iff_eq] at hh ha
      refine ⟨le_max_left _ _, le_max_left _ _, ?_, fun hcon => ?_⟩
      · omega
      · rcases hcon with h | h
        · exact absurd h hh
        · exact absurd h ha

/-! Claim theorems. -/

/-- C6: with the always-trust-cache override enabled and a snapshot present,
`fetch_odds(force_refresh=True)` returns the stored snapshot unchanged, leaves
the cache state (snapshot and cache time) unmodified, and performs no network
request. -/
theorem cache_override_no_network (st : ClientState) (s : Snapshot)
    (response : Except Unit Snapshot) (now : ℤ) (h : st.cache = some s) :
    fetchOdds true true st response now =
      { returned := some s, state := st, networkCalled := false } := by
  unfold fetchOdds
  rw [h]
  simp

/-- Witness for C6 at a concrete one-event cache state. -/
theorem cache_override_no_network_witness :
    ({ cache := some [c3NoH2hEvent], cacheTime := some 0 } : ClientState).cache = some [c3NoH2hEvent] ∧
    fetchOdds true true { cache := some [c3NoH2hEvent], cacheTime := some 0 } (Except.error ()) 5 =
      { returned := some [c3NoH2hEvent],
        state := { cache := some [c3NoH2hEvent], cacheTime := some 0 },
        networkCalled := false } :=
  ⟨rfl, cache_override_no_network _ _ _ _ rfl⟩

/-- C9 (amended): the recorder is a no-op when persistence is disabled; when
enabled with a readable array log and working I/O it appends exactly one
record; and every failure (I/O error injected, corrupt or non-array log) is
swallowed silently - no exception escapes, but also no warning is emitted
(the function contains no logging call). -/
theorem persist_never_raises_amended :
    (∀ file ioFail data, persistUsedOdds false file ioFail data =
      { file := file, warnings := 0, raised := false }) ∧
    (∀ l data, persistUsedOdds true (.jsonArray l) false data =
      { file := .jsonArray (l ++ [data]), warnings := 0, raised := false }) ∧
    (∀ enabled file ioFail data, (persistUsedOdds enabled file ioFail data).raised = false ∧
      (persistUsedOdds enabled file ioFail data).warnings = 0) := by
  refine ⟨fun file ioFail data => rfl, fun l data => rfl, fun enabled file ioFail data => ?_⟩
  unfold persistUsedOdds
  split_ifs with h1 h2
  · exact ⟨rfl, rfl⟩
  · exact ⟨rfl, rfl⟩
  · exact ⟨rfl, rfl⟩

/-- C9 counterexample: an I/O failure during recording produces zero warnings,
not the single warning the claim describes. -/
theorem persist_no_warning_cex :
    (persistUsedOdds true (.jsonArray []) true sampleRecord).warnings = 0 ∧
    ¬ (persistUsedOdds true (.jsonArray []) true sampleRecord).warnings = 1 :=
  ⟨rfl, fun h => by
    have h0 : (persistUsedOdds true (.jsonArray []) true sampleRecord).warnings = 0 := rfl
    rw [h0] at h
    exact Nat.zero_ne_one h⟩

/-- C10: with persistence enabled, an existing audit-log file whose content is
corrupt JSON or a non-array value is discarded entirely and the file is
rewritten as an array containing only the newly appended record. -/
theorem persist_corrupt_log_reset :
    (∀ data, persistUsedOdds true .corrupt false data =
      { file := .jsonArray [data], warnings := 0, raised := false }) ∧
    (∀ data, persistUsedOdds true .nonArray false data =
      { file := .jsonArray [data], warnings := 0, raised := false }) :=
  ⟨fun _ => rfl, fun _ => rfl⟩

theorem classicCore_2_4_eval : classicCore 2 4 0 = (2, 0) := by
  unfold classicCore pyRound ratFloor
  norm_num

/-- C2 (code bug): `_validate_quotes` does reject a length-4 quote set with a
ValueError, but `calculate_tip` never invokes it: the classic path silently
computes a tip from entries 0 and 2 of the length-4 quote list, and a
length-2 quote list fails with an IndexError instead of the documented
ValueError. -/
theorem classic_quote_validation_bug :
    validateQuotes [2, 7/2, 4, 5] = Except.error TipError.valueError ∧
    classicTip [2, 7/2, 4, 5] 0 = Except.ok (2, 0) ∧
    classicTip [2, 3] 0 = Except.error TipError.indexError := by
  refine ⟨rfl, ?_, rfl⟩
  rw [show classicTip [2, 7/2, 4, 5] 0 = Except.ok (classicCore 2 4 0) from rfl,
    classicCore_2_4_eval]

/-- C3 (amended): the smart strategy falls back to the classic path whenever
no matched event or no odds client is present; but when a matched event is
present and its aggregated h2h mapping is empty (no h2h market), the smart
branch raises a ValueError instead of falling back. -/
theorem classic_fallback_amended :
    (∀ hasClient quotes r home away,
      calculateTip "smart" hasClient none quotes r home away = classicTip quotes r) ∧
    (∀ e quotes r home away,
      calculateTip "smart" false (some e) quotes r home away = classicTip quotes r) := by
  constructor
  · intro hasClient quotes r home away
    rfl
  · intro e quotes r home away
    rfl

/-- C3 counterexample: smart strategy selected, client present, matched event
without any h2h market: the call surfaces a ValueError, while the classic
fallback the claim promises would have returned a tip. -/
theorem smart_no_h2h_raises_cex :
    calculateTip "smart" true (some c3NoH2hEvent) [2, 3, 4] 0 "H" "A" =
      Except.error TipError.valueError ∧
    classicTip [2, 3, 4] 0 = Except.ok (2, 0) := by
  constructor
  · rfl
  · rw [show classicTip [2, 3, 4] 0 = Except.ok (classicCore 2 4 0) from rfl,
      classicCore_2_4_eval]

/-- C8: the classic strategy matches the spec formula exactly: a draw (r, r)
when |home - away| < 0.25, otherwise coefficient 0.3 for |diff| > 7 else
0.75, the favored side (home for negative diff, away for positive) scoring
max(0, round(|diff| * coefficient)) + r and the other side r. -/
theorem classic_strategy_formula (homeQ awayQ : ℚ) (r : ℤ)
    (_h0 : 0 ≤ r) (_h1 : r ≤ 1) :
    classicCore homeQ awayQ r = classicSpec homeQ awayQ r := by
  unfold classicCore classicSpec
  by_cases hd : |homeQ - awayQ| < 1/4
  · rw [if_pos hd, if_pos hd]
  · rw [if_neg hd, if_neg hd]
    by_cases hneg : homeQ - awayQ < 0
    · rw [if_pos hneg, if_pos hneg, abs_of_neg hneg]
    · rw [if_neg hneg, if_neg hneg, abs_of_nonneg (not_lt.mp hneg)]

/-- Witness for C8 with quotes 2 and 4 and random bit 0. -/
theorem classic_strategy_formula_witness :
    (0 : ℤ) ≤ 0 ∧ (0 : ℤ) ≤ 1 ∧ classicCore 2 4 0 = classicSpec 2 4 0 :=
  ⟨le_refl 0, by decide, classic_strategy_formula 2 4 0 (le_refl 0) (by decide)⟩

theorem medianQ_singleton (q : ℚ) : medianQ [q] = q := by
  norm_num [medianQ, sortQ, List.insertionSort, List.orderedInsert]

theorem aggValue_singleton (q : ℚ) : aggValue [q] = round2 q := by
  norm_num [aggValue, trimCode, medianQ, sortQ, List.insertionSort, List.orderedInsert]

/-- C4: the aggregated h2h representative price is the two-decimal rounding of
the median of the price sample with its minimum and maximum removed exactly
once when more than two prices exist, and of the plain median otherwise; in
particular the prices 1.0, 100.0, 2.0, 2.1 aggregate to 2.05. -/
theorem winsorized_median_spec :
    (∀ e name, aggH2H e name = aggH2HSpec e name) ∧
    aggH2H c4Event "TeamX" = some (41/20) := by
  constructor
  · intro e name
    simp only [aggH2H, aggH2HSpec]
    by_cases he : (h2hPrices e name).isEmpty
    · rw [if_pos he, if_pos he]
    · rw [if_neg he, if_neg he]
      congr 1
      unfold aggValue
      by_cases hl : 2 < (h2hPrices e name).length
      · rw [if_pos hl, if_pos hl, medianQ_perm (trimCode_perm_trimOnce hl)]
      · rw [if_neg hl, if_neg hl]
  · have h1 : h2hPrices c4Event "TeamX" = [1, 100, 2, 21/10] := by rfl
    have h2 : sortQ [(1:ℚ), 100, 2, 21/10] = [1, 2, 21/10, 100] := by
      norm_num [sortQ, List.insertionSort, List.orderedInsert]
    have h3 : medianQ [(2:ℚ), 21/10] = 41/20 := by
      have hs : sortQ [(2:ℚ), 21/10] = [2, 21/10] := by
        norm_num [sortQ, List.insertionSort, List.orderedInsert]
      rw [medianQ, hs]
      norm_num
    have h4 : round2 (41/20) = 41/20 := by
      norm_num [round2, pyRound, ratFloor]
    rw [aggH2H, h1]
    simp only [List.isEmpty_cons, aggValue, trimCode, h2]
    norm_num [h3, h4]

theorem c1Draw_tendency : tendencyOf c1DrawEvent = some "Draw" := by
  have h : h2hAssoc c1DrawEvent =
      [("HomeFC", aggValue [3]), ("Draw", aggValue [2]), ("AwayFC", aggValue [4])] := rfl
  have h3 : aggValue [(3:ℚ)] = 3 := by
    rw [aggValue_singleton]
    norm_num [round2, pyRound, ratFloor]
  have h2 : aggValue [(2:ℚ)] = 2 := by
    rw [aggValue_singleton]
    norm_num [round2, pyRound, ratFloor]
  have h4 : aggValue [(4:ℚ)] = 4 := by
    rw [aggValue_singleton]
    norm_num [round2, pyRound, ratFloor]
  unfold tendencyOf
  rw [h]
  simp only [minBySnd, List.foldl_cons, List.foldl_nil, h3, h2, h4]
  norm_num

theorem c1Draw_spread : smartSpread c1DrawEvent = 1 := by
  unfold smartSpread resolvedSpread
  rw [show aggSpread c1DrawEvent = none from rfl]

theorem c1Draw_total : smartTotal c1DrawEvent = 3 := by
  have hT : aggTotals c1DrawEvent =
      some { point := round2 3, price := some (round2 (medianQ [2])),
             under := some (round2 (medianQ [1])) } := rfl
  have hpre : totalGoalsPre c1DrawEvent = 3 := by
    unfold totalGoalsPre
    rw [hT]
    simp only [medianQ_singleton]
    have e1 : round2 (2:ℚ) = 2 := by norm_num [round2, pyRound, ratFloor]
    have e2 : round2 (1:ℚ) = 1 := by norm_num [round2, pyRound, ratFloor]
    have e3 : round2 (3:ℚ) = 3 := by norm_num [round2, pyRound, ratFloor]
    rw [e1, e2, e3, e3]
    norm_num [ratFloor]
  unfold smartTotal
  rw [c1Draw_spread]
  unfold totalGoalsFinal
  rw [hT, hpre]
  norm_num

theorem c1Draw_tip : smartTip c1DrawEvent "HomeFC" "AwayFC" = Except.ok (1, 1) := by
  unfold smartTip
  rw [c1Draw_tendency, c1Draw_spread, c1Draw_total]
  rfl

/-- C1 (amended): every smart-strategy score has non-negative integer
components; the sum is at least the resolved total when the tendency is the
home or the away team; a draw tendency gives both sides `total // 2`, so the
sum may undershoot an odd resolved total by exactly one (never more). -/
theorem smart_tip_goals_bounds (e : Event) (home away : String) (hg ag : ℤ)
    (h : smartTip e home away = Except.ok (hg, ag)) :
    0 ≤ hg ∧ 0 ≤ ag ∧ smartTotal e - 1 ≤ hg + ag ∧
    ((tendencyOf e = some home ∨ tendencyOf e = some away) →
      smartTotal e ≤ hg + ag) := by
  unfold smartTip at h
  cases htd : tendencyOf e with
  | none =>
    rw [htd] at h
    simp at h
  | some td =>
    rw [htd] at h
    simp only [Except.ok.injEq] at h
    obtain ⟨b1, b2, b3, b4⟩ :=
      distributeGoals_bounds td home away (smartSpread e) (smartTotal e)
    rw [h] at b1 b2 b3 b4
    refine ⟨b1, b2, b3, fun hc => b4 ?_⟩
    rcases hc with hc | hc
    · exact Or.inl (Option.some.inj hc)
    · exact Or.inr (Option.some.inj hc)

/-- C1 counterexample: a draw-tendency event with resolved total 3 yields the
score (1, 1), whose sum 2 is below the total-goals value 3. -/
theorem smart_tip_total_undershoot_cex :
    smartTip c1DrawEvent "HomeFC" "AwayFC" = Except.ok (1, 1) ∧
    smartTotal c1DrawEvent = 3 ∧ ¬ ((1 : ℤ) + 1 ≥ 3) :=
  ⟨c1Draw_tip, c1Draw_total, by norm_num⟩

theorem c1Home_tendency : tendencyOf c1HomeEvent = some "HomeFC" := by
  have h : h2hAssoc c1HomeEvent =
      [("HomeFC", aggValue [1]), ("Draw", aggValue [3]), ("AwayFC", aggValue [4])] := rfl
  have h1 : aggValue [(1:ℚ)] = 1 := by
    rw [aggValue_singleton]
    norm_num [round2, pyRound, ratFloor]
  have h3 : aggValue [(3:ℚ)] = 3 := by
    rw [aggValue_singleton]
    norm_num [round2, pyRound, ratFloor]
  have h4 : aggValue [(4:ℚ)] = 4 := by
    rw [aggValue_singleton]
    norm_num [round2, pyRound, ratFloor]
  unfold tendencyOf
  rw [h]
  simp only [minBySnd, List.foldl_cons, List.foldl_nil, h1, h3, h4]
  norm_num

theorem c1Home_spread : smartSpread c1HomeEvent = 1 := by
  unfold smartSpread resolvedSpread
  rw [show aggSpread c1HomeEvent = none from rfl]

theorem c1Home_total : smartTotal c1HomeEvent = 2 := by
  unfold smartTotal
  rw [c1Home_spread]
  unfold totalGoalsFinal totalGoalsPre
  rw [show aggTotals c1HomeEvent = none from rfl]
  norm_num [ratTrunc, ratFloor]

theorem c1Home_tip : smartTip c1HomeEvent "HomeFC" "AwayFC" = Except.ok (2, 0) := by
  unfold smartTip
  rw [c1Home_tendency, c1Home_spread, c1Home_total]
  rfl

/-- Witness for C1 at a home-tendency event with resolved total 2 and score
(2, 0). -/
theorem smart_tip_goals_bounds_witness :
    0 ≤ (2 : ℤ) ∧ 0 ≤ (0 : ℤ) ∧ smartTotal c1HomeEvent - 1 ≤ 2 + 0 ∧
    ((tendencyOf c1HomeEvent = some "HomeFC" ∨ tendencyOf c1HomeEvent = some "AwayFC") →
      smartTotal c1HomeEvent ≤ 2 + 0) :=
  smart_tip_goals_bounds c1HomeEvent "HomeFC" "AwayFC" 2 0 c1Home_tip

/-- C5: whenever two or more points tie for the highest bookmaker vote count,
spread aggregation selects the tied point with the strictly lowest average
|favorite - underdog| gap, and totals aggregation the tied point with the
strictly lowest average |over - under| gap (reported rounded to 2 decimals). -/
theorem tie_break_lowest_gap :
    (∀ e p, 1 < (candidatesOf (fstList (spreadTuples e))).length →
      p ∈ candidatesOf (fstList (spreadTuples e)) →
      (∀ q ∈ candidatesOf (fstList (spreadTuples e)), q ≠ p →
        gapLt (spreadGap (spreadTuples e) p) (spreadGap (spreadTuples e) q) = true) →
      (aggSpread e).map SpreadInfo.point = some p) ∧
    (∀ e p, 1 < (candidatesOf (fstList (totalsTuples e))).length →
      p ∈ candidatesOf (fstList (totalsTuples e)) →
      (∀ q ∈ candidatesOf (fstList (totalsTuples e)), q ≠ p →
        gapLt (totalsGap (totalsTuples e) p) (totalsGap (totalsTuples e) q) = true) →
      (aggTotals e).map TotalsInfo.point = some (round2 p)) := by
  constructor
  · intro e p hlen hp hmin
    have hb := bestSpreadPoint_eq_of_strict _ p hp hmin
    have hne : (spreadTuples e).isEmpty = false := by
      cases hsp : spreadTuples e with
      | nil =>
        rw [hsp] at hlen
        simp [candidatesOf, fstList, dedupFirst, dedupFirstAux] at hlen
      | cons a l => rfl
    simp [aggSpread, hne, hb]
  · intro e p hlen hp hmin
    have hb := bestTotalsPoint_eq_of_strict _ p hp hmin
    have hne : (totalsTuples e).isEmpty = false := by
      cases hsp : totalsTuples e with
      | nil =>
        rw [hsp] at hlen
        simp [candidatesOf, fstList, dedupFirst, dedupFirstAux] at hlen
      | cons a l => rfl
    simp [aggTotals, hne, hb]

theorem c5SpreadGap0 : spreadGap (spreadTuples c5Event) 0 = some 2 := by
  rw [show spreadTuples c5Event = [(0, 2, some 4), (1, 2, some 3)] from rfl]
  norm_num [spreadGap, List.filterMap_cons, List.filterMap_nil]

theorem c5SpreadGap1 : spreadGap (spreadTuples c5Event) 1 = some 1 := by
  rw [show spreadTuples c5Event = [(0, 2, some 4), (1, 2, some 3)] from rfl]
  norm_num [spreadGap, List.filterMap_cons, List.filterMap_nil]

theorem c5SpreadStrict :
    ∀ q ∈ candidatesOf (fstList (spreadTuples c5Event)), q ≠ 1 →
      gapLt (spreadGap (spreadTuples c5Event) 1) (spreadGap (spreadTuples c5Event) q) = true := by
  intro q hq hne
  rw [show candidatesOf (fstList (spreadTuples c5Event)) = [0, 1] from rfl] at hq
  rcases List.mem_cons.mp hq with h | h
  · rw [h, c5SpreadGap1, c5SpreadGap0]
    norm_num [gapLt]
  · rcases List.mem_cons.mp h with h2 | h2
    · exact absurd h2 hne
    · simp at h2

theorem c5TotalsGap2 : totalsGap (totalsTuples c5Event) 2 = some 3 := by
  rw [show totalsTuples c5Event = [(2, 2, 5), (3, 2, 3)] from rfl]
  norm_num [totalsGap, List.filterMap_cons, List.filterMap_nil]

theorem c5TotalsGap3 : totalsGap (totalsTuples c5Event) 3 = some 1 := by
  rw [show totalsTuples c5Event = [(2, 2, 5), (3, 2, 3)] from rfl]
  norm_num [totalsGap, List.filterMap_cons, List.filterMap_nil]

theorem c5TotalsStrict :
    ∀ q ∈ candidatesOf (fstList (totalsTuples c5Event)), q ≠ 3 →
      gapLt (totalsGap (totalsTuples c5Event) 3) (totalsGap (totalsTuples c5Event) q) = true := by
  intro q hq hne
  rw [show candidatesOf (fstList (totalsTuples c5Event)) = [2, 3] from rfl] at hq
  rcases List.mem_cons.mp hq with h | h
  · rw [h, c5TotalsGap3, c5TotalsGap2]
    norm_num [gapLt]
  · rcases List.mem_cons.mp h with h2 | h2
    · exact absurd h2 hne
    · simp at h2

/-- Witness for C5: two bookmakers tied 1-1 on spread points 0 and 1 with
average gaps 2 and 1 select point 1; tied 1-1 on totals lines 2 and 3 with
average gaps 3 and 1 select line 3. -/
theorem tie_break_lowest_gap_witness :
    (aggSpread c5Event).map SpreadInfo.point = some 1 ∧
    (aggTotals c5Event).map TotalsInfo.point = some (round2 3) :=
  ⟨tie_break_lowest_gap.1 c5Event 1
      (by rw [show candidatesOf (fstList (spreadTuples c5Event)) = [0, 1] from rfl]; norm_num)
      (by rw [show candidatesOf (fstList (spreadTuples c5Event)) = [0, 1] from rfl]; norm_num)
      c5SpreadStrict,
   tie_break_lowest_gap.2 c5Event 3
      (by rw [show candidatesOf (fstList (totalsTuples c5Event)) = [2, 3] from rfl]; norm_num)
      (by rw [show candidatesOf (fstList (totalsTuples c5Event)) = [2, 3] from rfl]; norm_num)
      c5TotalsStrict⟩

/-- C7 (amended): permuting the bookmaker list never changes the aggregated
h2h mapping; spread and totals aggregation are also unchanged whenever the
consensus selection is decisive (some candidate point strictly wins the
average-gap tie-break, including a lone majority point).  Under a full tie
(equal vote counts and equal average gaps) the selected point follows first
occurrence order and may change with the bookmaker order. -/
theorem aggregation_perm_invariance (e1 e2 : Event)
    (h : e1.bookmakers.Perm e2.bookmakers) :
    (∀ name, aggH2H e1 name = aggH2H e2 name) ∧
    (SpreadDecisive e1 → aggSpread e1 = aggSpread e2) ∧
    (TotalsDecisive e1 → aggTotals e1 = aggTotals e2) :=
  ⟨fun name => aggH2H_perm h name,
   fun hd => aggSpread_perm_of_decisive h hd,
   fun hd => aggTotals_perm_of_decisive h hd⟩

/-- Witness for C7 on the two orderings of the decisive bookmaker pair. -/
theorem aggregation_perm_invariance_witness :
    (∀ name, aggH2H c5Event name = aggH2H c5EventRev name) ∧
    (SpreadDecisive c5Event → aggSpread c5Event = aggSpread c5EventRev) ∧
    (TotalsDecisive c5Event → aggTotals c5Event = aggTotals c5EventRev) :=
  aggregation_perm_invariance c5Event c5EventRev (List.Perm.swap decBook2 decBook1 [])

theorem c7ASpreadPoint : (aggSpread c7EventA).map SpreadInfo.point = some 0 := by
  have hg0 : spreadGap (spreadTuples c7EventA) 0 = some 1 := by
    rw [show spreadTuples c7EventA = [(0, 2, some 3), (1, 2, some 3)] from rfl]
    norm_num [spreadGap, List.filterMap_cons, List.filterMap_nil]
  have hg1 : spreadGap (spreadTuples c7EventA) 1 = some 1 := by
    rw [show spreadTuples c7EventA = [(0, 2, some 3), (1, 2, some 3)] from rfl]
    norm_num [spreadGap, List.filterMap_cons, List.filterMap_nil]
  have hb : bestSpreadPoint (spreadTuples c7EventA) = 0 := by
    unfold bestSpreadPoint
    rw [show candidatesOf (fstList (spreadTuples c7EventA)) = [0, 1] from rfl]
    show argminFirst (spreadGap (spreadTuples c7EventA)) 0 [1] = 0
    simp only [argminFirst, List.foldl_cons, List.foldl_nil, hg0, hg1]
    norm_num [gapLt]
  simp [aggSpread, show (spreadTuples c7EventA).isEmpty = false from rfl, hb]

theorem c7BSpreadPoint : (aggSpread c7EventB).map SpreadInfo.point = some 1 := by
  have hg0 : spreadGap (spreadTuples c7EventB) 0 = some 1 := by
    rw [show spreadTuples c7EventB = [(1, 2, some 3), (0, 2, some 3)] from rfl]
    norm_num [spreadGap, List.filterMap_cons, List.filterMap_nil]
  have hg1 : spreadGap (spreadTuples c7EventB) 1 = some 1 := by
    rw [show spreadTuples c7EventB = [(1, 2, some 3), (0, 2, some 3)] from rfl]
    norm_num [spreadGap, List.filterMap_cons, List.filterMap_nil]
  have hb : bestSpreadPoint (spreadTuples c7EventB) = 1 := by
    unfold bestSpreadPoint
    rw [show candidatesOf (fstList (spreadTuples c7EventB)) = [1, 0] from rfl]
    show argminFirst (spreadGap (spreadTuples c7EventB)) 1 [0] = 1
    simp only [argminFirst, List.foldl_cons, List.foldl_nil, hg0, hg1]
    norm_num [gapLt]
  simp [aggSpread, show (spreadTuples c7EventB).isEmpty = false from rfl, hb]

theorem c7ATotalsPoint : (aggTotals c7EventA).map TotalsInfo.point = some 2 := by
  have hg2 : totalsGap (totalsTuples c7EventA) 2 = some 1 := by
    rw [show totalsTuples c7EventA = [(2, 2, 3), (3, 2, 3)] from rfl]
    norm_num [totalsGap, List.filterMap_cons, List.filterMap_nil]
  have hg3 : totalsGap (totalsTuples c7EventA) 3 = some 1 := by
    rw [show totalsTuples c7EventA = [(2, 2, 3), (3, 2, 3)] from rfl]
    norm_num [totalsGap, List.filterMap_cons, List.filterMap_nil]
  have hb : bestTotalsPoint (totalsTuples c7EventA) = 2 := by
    unfold bestTotalsPoint
    rw [show candidatesOf (fstList (totalsTuples c7EventA)) = [2, 3] from rfl]
    show argminFirst (totalsGap (totalsTuples c7EventA)) 2 [3] = 2
    simp only [argminFirst, List.foldl_cons, List.foldl_nil, hg2, hg3]
    norm_num [gapLt]
  have hr : round2 (2:ℚ) = 2 := by norm_num [round2, pyRound, ratFloor]
  simp [aggTotals, show (totalsTuples c7EventA).isEmpty = false from rfl, hb, hr]

theorem c7BTotalsPoint : (aggTotals c7EventB).map TotalsInfo.point = some 3 := by
  have hg2 : totalsGap (totalsTuples c7EventB) 2 = some 1 := by
    rw [show totalsTuples c7EventB = [(3, 2, 3), (2, 2, 3)] from rfl]
    norm_num [totalsGap, List.filterMap_cons, List.filterMap_nil]
  have hg3 : totalsGap (totalsTuples c7EventB) 3 = some 1 := by
    rw [show totalsTuples c7EventB = [(3, 2, 3), (2, 2, 3)] from rfl]
    norm_num [totalsGap, List.filterMap_cons, List.filterMap_nil]
  have hb : bestTotalsPoint (totalsTuples c7EventB) = 3 := by
    unfold bestTotalsPoint
    rw [show candidatesOf (fstList (totalsTuples c7EventB)) = [3, 2] from rfl]
    show argminFirst (totalsGap (totalsTuples c7EventB)) 3 [2] = 3
    simp only [argminFirst, List.foldl_cons, List.foldl_nil, hg2, hg3]
    norm_num [gapLt]
  have hr : round2 (3:ℚ) = 3 := by norm_num [round2, pyRound, ratFloor]
  simp [aggTotals, show (totalsTuples c7EventB).isEmpty = false from rfl, hb, hr]

/-- C7 counterexample: reversing the order of two bookmakers whose spread
points (and totals lines) tie both the vote count and the average gap changes
the selected consensus point, so spread and totals aggregation are not
invariant under bookmaker permutation. -/
theorem aggregation_order_dependent_cex :
    c7EventA.bookmakers.Perm c7EventB.bookmakers ∧
    aggSpread c7EventA ≠ aggSpread c7EventB ∧
    aggTotals c7EventA ≠ aggTotals c7EventB := by
  refine ⟨List.Perm.swap tieBook2 tieBook1 [], fun heq => ?_, fun heq => ?_⟩
  · have hA := c7ASpreadPoint
    rw [heq, c7BSpreadPoint] at hA
    simp at hA
  · have hA := c7ATotalsPoint
    rw [heq, c7BTotalsPoint] at hA
    simp at hA
